import Mathlib

/-!
Verification of the webhook-driven Bybit order-execution bridge
(`lambda_function.py`).

The development shallowly embeds the handler and its helpers:

* Python strings are modelled as lists of code points (`PyStr := List Nat`);
  `str.upper`, `str.replace` and `str.rstrip` become list functions.
* Python floats are modelled as exact rationals (`Rat`); `round` is
  round-half-to-even (`pyRound`), as in CPython.
* JSON payload values become `JVal`; Python truthiness (`if x:`, `a or b`)
  is modelled explicitly by `JVal.truthy` / `pyOr`.
* The outbound Bybit API is a record of responses (`BybitEnv`); a call that
  raises is an `Except.error`.  Each operation returns its result together
  with the list of exchange calls it performed, so that "no call is made"
  style properties can be stated.
* Telegram delivery is modelled by counting send attempts.
-/

/-- Python strings, as lists of Unicode code points. -/
abbrev PyStr := List Nat

/-- Code points of a Lean string literal (used to transcribe Python string
literals into the model). -/
def codes (s : String) : PyStr := s.data.map Char.toNat

/-- Model of `str.upper` on one code point (ASCII letters; the payloads at
hand are ASCII). -/
def upC (c : Nat) : Nat := if 97 ≤ c ∧ c ≤ 122 then c - 32 else c

/-- Model of `str.upper`. -/
def pyUpper (s : PyStr) : PyStr := s.map upC

/-- Fuel-driven worker for `str.replace(old, "")`: removes every
non-overlapping occurrence of the pattern `c :: rest`, scanning left to
right, exactly like CPython's `replace`.  The fuel is the length of the
remaining input, so the zero-fuel branch is never reached. -/
def removeAllF (c : Nat) (rest : PyStr) : Nat → List Nat → List Nat
  | _, [] => []
  | 0, l => l
  | fuel + 1, x :: xs =>
    if x = c ∧ xs.take rest.length = rest then
      removeAllF c rest fuel (xs.drop rest.length)
    else
      x :: removeAllF c rest fuel xs

/-- Model of `s.replace(pat, "")` for the nonempty pattern `c :: rest`. -/
def removeAll (c : Nat) (rest : PyStr) (s : PyStr) : PyStr :=
  removeAllF c rest s.length s

/-- Whether the pattern `c :: rest` occurs in `s` (used to state when
`removeAll` is the identity). -/
def hasOcc (c : Nat) (rest : PyStr) : List Nat → Bool
  | [] => false
  | x :: xs =>
    if x = c ∧ xs.take rest.length = rest then true else hasOcc c rest xs

/-- Symbol normalization from `lambda_function.py:603`:
`symbol.upper().replace('.P', '').replace('-', '')`.
Code point 46 is `'.'`, 80 is `'P'`, 45 is `'-'`. -/
def normalizeSymbol (s : PyStr) : PyStr :=
  removeAll 45 [] (removeAll 46 [80] (pyUpper s))

-- Basic lemmas about the string model ---------------------------------------

theorem upC_idem (c : Nat) : upC (upC c) = upC c := by
  unfold upC
  split
  · split
    · omega
    · rfl
  · rfl

theorem removeAllF_of_not_hasOcc (c : Nat) (rest : PyStr) :
    ∀ (fuel : Nat) (s : List Nat), hasOcc c rest s = false →
      removeAllF c rest fuel s = s := by
  intro fuel
  induction fuel with
  | zero => intro s _; cases s <;> rfl
  | succ n ih =>
    intro s h
    cases s with
    | nil => rfl
    | cons x xs =>
      unfold hasOcc at h
      unfold removeAllF
      split at h
      · exact absurd h (by simp)
      · rename_i hc
        rw [if_neg hc, ih xs h]

theorem removeAll_of_not_hasOcc (c : Nat) (rest : PyStr) (s : PyStr)
    (h : hasOcc c rest s = false) : removeAll c rest s = s :=
  removeAllF_of_not_hasOcc c rest s.length s h

theorem removeAllF_nil_pat (c : Nat) :
    ∀ (fuel : Nat) (s : List Nat), s.length ≤ fuel →
      removeAllF c [] fuel s = s.filter (fun x => decide (x ≠ c)) := by
  intro fuel
  induction fuel with
  | zero =>
    intro s hs
    have hnil : s = [] := List.length_eq_zero.mp (Nat.le_zero.mp hs)
    subst hnil; rfl
  | succ n ih =>
    intro s hs
    cases s with
    | nil => rfl
    | cons x xs =>
      simp only [List.length_cons] at hs
      unfold removeAllF
      by_cases hx : x = c
      · rw [if_pos ⟨hx, by simp⟩]
        simp only [List.length_nil, List.drop_zero]
        rw [ih xs (by omega)]
        subst hx
        simp [List.filter_cons]
      · rw [if_neg (by simp [hx])]
        rw [ih xs (by omega)]
        simp [List.filter_cons, hx]

theorem removeAll_nil_pat (c : Nat) (s : PyStr) :
    removeAll c [] s = s.filter (fun x => decide (x ≠ c)) :=
  removeAllF_nil_pat c s.length s (Nat.le_refl _)

theorem mem_removeAllF (c : Nat) (rest : PyStr) :
    ∀ (fuel : Nat) (s : List Nat) (x : Nat),
      x ∈ removeAllF c rest fuel s → x ∈ s := by
  intro fuel
  induction fuel with
  | zero =>
    intro s x hx
    cases s with
    | nil => simp [removeAllF] at hx
    | cons y ys => simpa [removeAllF] using hx
  | succ n ih =>
    intro s x hx
    cases s with
    | nil => simp [removeAllF] at hx
    | cons y ys =>
      unfold removeAllF at hx
      split at hx
      · have hmem := ih _ _ hx
        exact List.mem_cons_of_mem y (List.drop_subset _ ys hmem)
      · rcases List.mem_cons.mp hx with h | h
        · exact h ▸ List.mem_cons_self y ys
        · exact List.mem_cons_of_mem y (ih _ _ h)

theorem mem_removeAll (c : Nat) (rest : PyStr) (s : PyStr) (x : Nat)
    (hx : x ∈ removeAll c rest s) : x ∈ s :=
  mem_removeAllF c rest s.length s x hx

theorem map_eq_self_of_mem {f : Nat → Nat} :
    ∀ (l : List Nat), (∀ x ∈ l, f x = x) → l.map f = l := by
  intro l
  induction l with
  | nil => intro _; rfl
  | cons x xs ih =>
    intro h
    simp only [List.map_cons]
    rw [h x (List.mem_cons_self x xs), ih (fun y hy => h y (List.mem_cons_of_mem x hy))]

theorem mem_normalizeSymbol_upper (s : PyStr) (x : Nat)
    (hx : x ∈ normalizeSymbol s) : upC x = x := by
  have h1 : x ∈ removeAll 46 [80] (pyUpper s) :=
    mem_removeAll _ _ _ _ hx
  have h2 : x ∈ pyUpper s := mem_removeAll _ _ _ _ h1
  rcases List.mem_map.mp h2 with ⟨y, _, rfl⟩
  exact upC_idem y

theorem normalizeSymbol_no_dash (s : PyStr) (x : Nat)
    (hx : x ∈ normalizeSymbol s) : x ≠ 45 := by
  unfold normalizeSymbol at hx
  rw [removeAll_nil_pat] at hx
  have hmem := List.of_mem_filter hx
  simpa using hmem

theorem pyUpper_normalizeSymbol (s : PyStr) :
    pyUpper (normalizeSymbol s) = normalizeSymbol s :=
  map_eq_self_of_mem _ (fun x hx => mem_normalizeSymbol_upper s x hx)

theorem removeDash_normalizeSymbol (s : PyStr) :
    removeAll 45 [] (normalizeSymbol s) = normalizeSymbol s := by
  rw [removeAll_nil_pat]
  apply List.filter_eq_self.mpr
  intro x hx
  simpa using normalizeSymbol_no_dash s x hx

-- C6: idempotence of symbol normalization ------------------------------------

/-- C6 (counterexample): symbol normalization is not idempotent as claimed.
On input `".-P"`, removing the dash creates a fresh `".P"` occurrence, so
`normalizeSymbol ".-P" = ".P"` while normalizing again yields `""`. -/
theorem normalizeSymbol_not_idem_cex :
    normalizeSymbol (normalizeSymbol (codes ".-P")) ≠
      normalizeSymbol (codes ".-P") := by decide

/-- C6 (amended): symbol normalization is idempotent on every input whose
once-normalized form contains no `".P"` occurrence; on such strings the
second pass uppercases, `.P`-strips and dash-strips an already fixed
string. -/
theorem normalizeSymbol_idem_of_no_dotP (s : PyStr)
    (h : hasOcc 46 [80] (normalizeSymbol s) = false) :
    normalizeSymbol (normalizeSymbol s) = normalizeSymbol s := by
  have h1 : normalizeSymbol (normalizeSymbol s)
      = removeAll 45 [] (removeAll 46 [80] (normalizeSymbol s)) := by
    rw [show normalizeSymbol (normalizeSymbol s)
        = removeAll 45 [] (removeAll 46 [80] (pyUpper (normalizeSymbol s))) from rfl,
      pyUpper_normalizeSymbol]
  rw [h1, removeAll_of_not_hasOcc _ _ _ h, removeDash_normalizeSymbol]

/-- C6 (witness): the amended idempotence theorem applies to the ordinary
TradingView symbol `"BTCUSDT.P"`. -/
theorem normalizeSymbol_idem_witness :
    hasOcc 46 [80] (normalizeSymbol (codes "BTCUSDT.P")) = false ∧
      normalizeSymbol (normalizeSymbol (codes "BTCUSDT.P")) =
        normalizeSymbol (codes "BTCUSDT.P") :=
  ⟨by decide, normalizeSymbol_idem_of_no_dotP _ (by decide)⟩

-- Decimal formatting of quantities and prices --------------------------------

/-- CPython `round()` on a float value: round half to even. -/
def pyRound (x : Rat) : Int :=
  let f := ⌊x⌋
  let r := x - f
  if r < 1/2 then f
  else if r > 1/2 then f + 1
  else if f % 2 = 0 then f else f + 1

/-- Decimal digit characters of a natural number, most significant first
(`"0"` for zero), as produced by CPython when printing the integer part. -/
def natChars (n : Nat) : PyStr :=
  if n = 0 then [48] else (Nat.digits 10 n).reverse.map (fun d => 48 + d)

/-- Four zero-padded fractional digit characters of `f < 10000`. -/
def pad4 (f : Nat) : PyStr :=
  [48 + f / 1000 % 10, 48 + f / 100 % 10, 48 + f / 10 % 10, 48 + f % 10]

/-- Digit characters of `m` scaled by `10^4`: integer part, `'.'` (code 46),
then four fractional digits. -/
def fixed4OfNat (m : Nat) : PyStr :=
  natChars (m / 10000) ++ 46 :: pad4 (m % 10000)

/-- Model of the f-string `f"{q:.4f}"`: the value is rounded half-to-even at
the fourth decimal and printed with exactly four fractional digits. -/
def pyFixed4 (q : Rat) : PyStr :=
  let n := pyRound (q * 10000)
  if n < 0 then 45 :: fixed4OfNat n.natAbs else fixed4OfNat n.toNat

/-- Model of `str.rstrip(c)`: remove every trailing occurrence of `c`. -/
def rstrip (c : Nat) (s : PyStr) : PyStr :=
  (s.reverse.dropWhile (fun x => decide (x = c))).reverse

/-- Quantity formatting from `lambda_function.py:374` (also used for
stop-loss / take-profit / trailing-stop prices at lines 276-288 and
428-438): `f"{quantity:.4f}".rstrip('0').rstrip('.')`. -/
def pyFormatQty (q : Rat) : PyStr :=
  rstrip 46 (rstrip 48 (pyFixed4 q))

/-- Whether a code point is a decimal digit character. -/
def isDigitCode (c : Nat) : Bool := decide (48 ≤ c ∧ c ≤ 57)

/-- Numeric value of a most-significant-first digit-character string. -/
def digitsVal (cs : PyStr) : Nat :=
  cs.foldl (fun a c => 10 * a + (c - 48)) 0

/-- Parse a nonempty all-digit string as a natural number. -/
def parseNatPart (cs : PyStr) : Option Nat :=
  if cs ≠ [] ∧ cs.all isDigitCode then some (digitsVal cs) else none

/-- Parse an unsigned decimal string (`"12"`, `"12.75"`) back to the exact
rational it denotes, as CPython `float()` does on the strings the formatter
produces. -/
def parseDecimal (cs : PyStr) : Option Rat :=
  let ip := cs.takeWhile (fun x => decide (x ≠ 46))
  match cs.dropWhile (fun x => decide (x ≠ 46)) with
  | [] => (parseNatPart ip).map (fun n => (n : Rat))
  | _ :: fp =>
    match parseNatPart ip, parseNatPart fp with
    | some i, some f => some ((i : Rat) + (f : Rat) / (10 : Rat) ^ fp.length)
    | _, _ => none

-- Lemmas about digit strings --------------------------------------------------

theorem pyRound_intCast (n : ℤ) : pyRound (n : ℚ) = n := by
  simp [pyRound]

theorem natChars_all_digit (n : Nat) :
    ∀ x ∈ natChars n, 48 ≤ x ∧ x ≤ 57 := by
  intro x hx
  unfold natChars at hx
  split at hx
  · simp at hx
    omega
  · simp only [List.map_reverse, List.mem_reverse] at hx
    rcases List.mem_map.mp hx with ⟨d, hd, rfl⟩
    have hlt : d < 10 := Nat.digits_lt_base (by norm_num) hd
    omega

theorem natChars_ne_nil (n : Nat) : natChars n ≠ [] := by
  unfold natChars
  split
  · simp
  · rename_i h
    simp only [ne_eq, List.map_eq_nil_iff, List.reverse_eq_nil_iff]
    exact Nat.digits_ne_nil_iff_ne_zero.mpr h

theorem digitsVal_append_singleton (xs : PyStr) (c : Nat) :
    digitsVal (xs ++ [c]) = 10 * digitsVal xs + (c - 48) := by
  unfold digitsVal
  rw [List.foldl_append]
  rfl

theorem digitsVal_rev_map (ds : List Nat) :
    digitsVal ((ds.map (fun d => 48 + d)).reverse) = Nat.ofDigits 10 ds := by
  induction ds with
  | nil => rfl
  | cons d t ih =>
    simp only [List.map_cons, List.reverse_cons]
    rw [digitsVal_append_singleton, ih, Nat.ofDigits_cons]
    omega

theorem digitsVal_natChars (n : Nat) : digitsVal (natChars n) = n := by
  unfold natChars
  split
  · rename_i h
    subst h; rfl
  · rw [List.map_reverse, digitsVal_rev_map, Nat.ofDigits_digits]

theorem takeWhile_append_of_all {p : Nat → Bool} :
    ∀ (l1 l2 : List Nat), (∀ x ∈ l1, p x = true) →
      (l1 ++ l2).takeWhile p = l1 ++ l2.takeWhile p := by
  intro l1
  induction l1 with
  | nil => intro l2 _; rfl
  | cons x t ih =>
    intro l2 h
    have hx := h x (List.mem_cons_self x t)
    have ht := ih l2 (fun y hy => h y (List.mem_cons_of_mem x hy))
    simp [List.takeWhile_cons, hx, ht]

theorem dropWhile_append_of_all {p : Nat → Bool} :
    ∀ (l1 l2 : List Nat), (∀ x ∈ l1, p x = true) →
      (l1 ++ l2).dropWhile p = l2.dropWhile p := by
  intro l1
  induction l1 with
  | nil => intro l2 _; rfl
  | cons x t ih =>
    intro l2 h
    have hx := h x (List.mem_cons_self x t)
    have ht := ih l2 (fun y hy => h y (List.mem_cons_of_mem x hy))
    simp [List.dropWhile_cons, hx, ht]

theorem dropWhile_append_cons_neg {p : Nat → Bool} (y : Nat) (hy : p y = false) :
    ∀ (l1 l2 : List Nat),
      (l1 ++ y :: l2).dropWhile p = l1.dropWhile p ++ y :: l2 := by
  intro l1
  induction l1 with
  | nil => simp [List.dropWhile_cons, hy]
  | cons x t ih =>
    intro l2
    by_cases hx : p x = true
    · simp [List.dropWhile_cons, hx, ih l2]
    · simp [List.dropWhile_cons, hx]

theorem rstrip_append_cons (c y : Nat) (hy : y ≠ c) (a p : PyStr) :
    rstrip c (a ++ y :: p) = a ++ y :: rstrip c p := by
  unfold rstrip
  rw [show a ++ y :: p = a ++ (y :: p) from rfl, List.reverse_append,
    List.reverse_cons, List.append_assoc, List.singleton_append,
    dropWhile_append_cons_neg y (by simp [hy]), List.reverse_append,
    List.reverse_cons, List.reverse_reverse, List.append_assoc,
    List.singleton_append]

theorem rstrip_eq_self_of_last_ne (c : Nat) (l : PyStr) (x : Nat) (t : PyStr)
    (h : l.reverse = x :: t) (hx : x ≠ c) : rstrip c l = l := by
  unfold rstrip
  rw [h, List.dropWhile_cons]
  simp only [decide_eq_true_eq, hx, if_false]
  rw [← h, List.reverse_reverse]

theorem mem_rstrip (c : Nat) (l : PyStr) (x : Nat) (hx : x ∈ rstrip c l) :
    x ∈ l := by
  unfold rstrip at hx
  rw [List.mem_reverse] at hx
  have hsub := List.dropWhile_sublist (l := l.reverse) (p := fun x => decide (x = c))
  have := hsub.subset hx
  rwa [List.mem_reverse] at this

theorem digitsVal_dropWhile_rev :
    ∀ l : List Nat,
      digitsVal ((l.dropWhile (fun x => decide (x = 48))).reverse) *
          10 ^ (l.length - (l.dropWhile (fun x => decide (x = 48))).length) =
        digitsVal l.reverse := by
  intro l
  induction l with
  | nil => rfl
  | cons x t ih =>
    by_cases hx : x = 48
    · subst hx
      have hle : (t.dropWhile (fun x => decide (x = 48))).length ≤ t.length :=
        (List.dropWhile_sublist _).length_le
      rw [List.dropWhile_cons]
      rw [if_pos (by simp)]
      simp only [List.reverse_cons, List.length_cons]
      rw [digitsVal_append_singleton]
      have hexp : t.length + 1 - (t.dropWhile (fun x => decide (x = 48))).length
          = (t.length - (t.dropWhile (fun x => decide (x = 48))).length) + 1 := by
        omega
      rw [hexp, pow_succ, ← Nat.mul_assoc, ih]
      omega
    · simp [List.dropWhile_cons, hx]

theorem rstrip_length_le (c : Nat) (p : PyStr) :
    (rstrip c p).length ≤ p.length := by
  unfold rstrip
  rw [List.length_reverse]
  calc (p.reverse.dropWhile (fun x => decide (x = c))).length
      ≤ p.reverse.length := (List.dropWhile_sublist _).length_le
    _ = p.length := List.length_reverse p.reverse ▸ by simp

theorem digitsVal_rstrip48 (p : PyStr) :
    digitsVal (rstrip 48 p) * 10 ^ (p.length - (rstrip 48 p).length) =
      digitsVal p := by
  have h := digitsVal_dropWhile_rev p.reverse
  rw [List.reverse_reverse, List.length_reverse] at h
  unfold rstrip
  rw [List.length_reverse]
  exact h

theorem pad4_digitsVal (f : Nat) (hf : f < 10000) : digitsVal (pad4 f) = f := by
  simp only [pad4, digitsVal, List.foldl]
  omega

theorem pad4_all_digit (f : Nat) : ∀ x ∈ pad4 f, 48 ≤ x ∧ x ≤ 57 := by
  intro x hx
  simp only [pad4, List.mem_cons, List.not_mem_nil, or_false] at hx
  rcases hx with h | h | h | h <;> subst h <;> omega

theorem pad4_length (f : Nat) : (pad4 f).length = 4 := rfl

theorem parseNatPart_of_digits (d : PyStr) (hne : d ≠ [])
    (hd : ∀ x ∈ d, 48 ≤ x ∧ x ≤ 57) : parseNatPart d = some (digitsVal d) := by
  unfold parseNatPart
  rw [if_pos]
  refine ⟨hne, ?_⟩
  rw [List.all_eq_true]
  intro x hx
  have := hd x hx
  simp [isDigitCode]
  omega

theorem parseNatPart_natChars (n : Nat) :
    parseNatPart (natChars n) = some n := by
  rw [parseNatPart_of_digits _ (natChars_ne_nil n) (natChars_all_digit n),
    digitsVal_natChars]

theorem rstrip_of_all_ne (c : Nat) (a : PyStr) (h : ∀ x ∈ a, x ≠ c) :
    rstrip c a = a := by
  unfold rstrip
  cases hrev : a.reverse with
  | nil =>
    have : a = [] := by simpa using congrArg List.reverse hrev
    simp [this]
  | cons x t =>
    have hx : x ≠ c := h x (by rw [← List.mem_reverse, hrev]; exact List.mem_cons_self x t)
    rw [List.dropWhile_cons, if_neg (by simp [hx]), ← hrev, List.reverse_reverse]

theorem rstrip_append_same (c : Nat) (a : PyStr) :
    rstrip c (a ++ [c]) = rstrip c a := by
  unfold rstrip
  rw [List.reverse_append]
  simp only [List.reverse_cons, List.reverse_nil, List.nil_append,
    List.singleton_append]
  rw [List.dropWhile_cons, if_pos (by simp)]

theorem pyFixed4_natCast_div (m : Nat) :
    pyFixed4 ((m : ℚ) / 10000) = natChars (m / 10000) ++ 46 :: pad4 (m % 10000) := by
  have h1 : pyRound (((m : ℚ) / 10000) * 10000) = (m : ℤ) := by
    rw [div_mul_cancel₀ _ (by norm_num : (10000:ℚ) ≠ 0)]
    exact_mod_cast pyRound_intCast (m : ℤ)
  unfold pyFixed4
  rw [h1, if_neg (Int.not_lt.mpr (Int.natCast_nonneg m))]
  unfold fixed4OfNat
  rw [Int.toNat_natCast]

-- Equation lemmas for parseDecimal -------------------------------------------

theorem parseDecimal_no_dot (cs : PyStr)
    (h : cs.dropWhile (fun x => decide (x ≠ 46)) = []) :
    parseDecimal cs
      = (parseNatPart (cs.takeWhile (fun x => decide (x ≠ 46)))).map
          (fun n => (n : ℚ)) := by
  unfold parseDecimal
  rw [h]

theorem parseDecimal_dot (cs : PyStr) (y : Nat) (fp : PyStr)
    (h : cs.dropWhile (fun x => decide (x ≠ 46)) = y :: fp) :
    parseDecimal cs
      = match parseNatPart (cs.takeWhile (fun x => decide (x ≠ 46))),
          parseNatPart fp with
        | some i, some f => some ((i : ℚ) + (f : ℚ) / (10 : ℚ) ^ fp.length)
        | _, _ => none := by
  unfold parseDecimal
  rw [h]

-- C4: quantity formatting round-trip ------------------------------------------

/-- C4 (counterexample): formatting does not round-trip for every positive
quantity.  The positive value `0.00001` is formatted by
`f"{q:.4f}".rstrip('0').rstrip('.')` as `"0"`, which parses back to `0`,
not to `0.00001`. -/
theorem pyFormatQty_not_roundtrip_cex :
    parseDecimal (pyFormatQty ((1 : ℚ) / 100000)) = some 0 ∧
      (0 : ℚ) ≠ (1 : ℚ) / 100000 := by
  constructor
  · have h1 : pyRound (((1 : ℚ) / 100000) * 10000) = 0 := by
      norm_num [pyRound]
    unfold pyFormatQty pyFixed4
    rw [h1]
    norm_num [fixed4OfNat, natChars, pad4, rstrip, parseDecimal, parseNatPart,
      digitsVal, isDigitCode]
  · norm_num

/-- C4 (amended): the fixed-point formatting round-trips on every positive
quantity that is an integer multiple of `10^-4`, i.e. every value the
four-decimal formatter can represent exactly: for every `m > 0`, formatting
`m / 10000` and parsing the result back as a decimal yields `m / 10000`. -/
theorem pyFormatQty_roundtrip (m : Nat) (hm : 0 < m) :
    parseDecimal (pyFormatQty ((m : ℚ) / 10000)) = some ((m : ℚ) / 10000) := by
  have hflt : m % 10000 < 10000 := Nat.mod_lt _ (by norm_num)
  have hmif : 10000 * (m / 10000) + m % 10000 = m := Nat.div_add_mod m 10000
  have ha_digit := natChars_all_digit (m / 10000)
  have ha_ne := natChars_ne_nil (m / 10000)
  have ha_ne46 : ∀ x ∈ natChars (m / 10000), x ≠ 46 := by
    intro x hx
    have := ha_digit x hx
    omega
  have hstep1 : pyFormatQty ((m : ℚ) / 10000)
      = rstrip 46 (natChars (m / 10000) ++ 46 :: rstrip 48 (pad4 (m % 10000))) := by
    unfold pyFormatQty
    rw [pyFixed4_natCast_div, rstrip_append_cons 48 46 (by omega)]
  by_cases hf : m % 10000 = 0
  · -- all four fractional digits are zeros; the dot is stripped as well
    have hstrip0 : rstrip 48 (pad4 (m % 10000)) = [] := by
      rw [hf]; decide
    rw [hstep1, hstrip0, rstrip_append_same, rstrip_of_all_ne 46 _ ha_ne46]
    rw [parseDecimal_no_dot _
      (List.dropWhile_eq_nil_iff.mpr (by intro x hx; simpa using ha_ne46 x hx))]
    rw [List.takeWhile_eq_self_iff.mpr (by intro x hx; simpa using ha_ne46 x hx)]
    rw [parseNatPart_natChars]
    show some (((m / 10000 : Nat) : ℚ)) = some ((m : ℚ) / 10000)
    congr 1
    rw [eq_div_iff (by norm_num : (10000:ℚ) ≠ 0)]
    exact_mod_cast congrArg (fun n : Nat => (n : ℚ))
      (Nat.div_mul_cancel (Nat.dvd_of_mod_eq_zero hf))
  · -- at least one fractional digit survives the stripping
    set d := rstrip 48 (pad4 (m % 10000)) with hd
    have hdsub : ∀ x ∈ d, 48 ≤ x ∧ x ≤ 57 := by
      intro x hx
      exact pad4_all_digit _ x (mem_rstrip _ _ _ hx)
    have hdval : digitsVal d * 10 ^ (4 - d.length) = m % 10000 := by
      have hv := digitsVal_rstrip48 (pad4 (m % 10000))
      rwa [pad4_length, pad4_digitsVal _ hflt, ← hd] at hv
    have hdlen : d.length ≤ 4 := by
      have hl := rstrip_length_le 48 (pad4 (m % 10000))
      rwa [pad4_length, ← hd] at hl
    have hdne : d ≠ [] := by
      intro hnil
      rw [hnil] at hdval
      simp [digitsVal] at hdval
      omega
    have hfix : rstrip 46 (natChars (m / 10000) ++ 46 :: d)
        = natChars (m / 10000) ++ 46 :: d := by
      cases hrev : d.reverse with
      | nil => exact absurd (by simpa using congrArg List.reverse hrev) hdne
      | cons x t =>
        have hxd : x ∈ d := by
          rw [← List.mem_reverse, hrev]; exact List.mem_cons_self x t
        have hx46 : x ≠ 46 := by have := hdsub x hxd; omega
        refine rstrip_eq_self_of_last_ne 46 _ x
          (t ++ 46 :: (natChars (m / 10000)).reverse) ?_ hx46
        rw [List.reverse_append, List.reverse_cons, hrev]
        simp
    have hdw : (natChars (m / 10000) ++ 46 :: d).dropWhile
        (fun x => decide (x ≠ 46)) = 46 :: d := by
      rw [dropWhile_append_of_all _ _ (by intro x hx; simpa using ha_ne46 x hx),
        List.dropWhile_cons, if_neg (by simp)]
    have htw : (natChars (m / 10000) ++ 46 :: d).takeWhile
        (fun x => decide (x ≠ 46)) = natChars (m / 10000) := by
      rw [takeWhile_append_of_all _ _ (by intro x hx; simpa using ha_ne46 x hx),
        List.takeWhile_cons, if_neg (by simp), List.append_nil]
    rw [hstep1, hfix, parseDecimal_dot _ 46 d hdw, htw, parseNatPart_natChars,
      parseNatPart_of_digits d hdne hdsub]
    show some (((m / 10000 : Nat) : ℚ) + (digitsVal d : ℚ) / (10 : ℚ) ^ d.length)
      = some ((m : ℚ) / 10000)
    have hkey : (digitsVal d : ℚ) / (10 : ℚ) ^ d.length
        = ((m % 10000 : Nat) : ℚ) / 10000 := by
      rw [div_eq_div_iff (by positivity) (by norm_num)]
      calc (digitsVal d : ℚ) * 10000
          = (digitsVal d : ℚ) * 10 ^ (4 : ℕ) := by norm_num
        _ = (digitsVal d : ℚ) * ((10 : ℚ) ^ (4 - d.length) * 10 ^ d.length) := by
            rw [← pow_add, Nat.sub_add_cancel hdlen]
        _ = ((digitsVal d : ℚ) * (10 : ℚ) ^ (4 - d.length)) * 10 ^ d.length := by
            ring
        _ = ((m % 10000 : Nat) : ℚ) * 10 ^ d.length := by
            congr 1
            exact_mod_cast hdval
    rw [hkey]
    have hm' : (m : ℚ) = 10000 * ((m / 10000 : Nat) : ℚ) + ((m % 10000 : Nat) : ℚ) := by
      exact_mod_cast hmif.symm
    rw [hm']
    congr 1
    field_simp
    ring

/-- C4 (witness): the amended round-trip theorem applies to the quantity
`0.01 = 100 / 10000` from the spec's own example. -/
theorem pyFormatQty_roundtrip_witness :
    0 < 100 ∧
      parseDecimal (pyFormatQty ((100 : ℚ) / 10000)) = some ((100 : ℚ) / 10000) :=
  ⟨by decide, pyFormatQty_roundtrip 100 (by decide)⟩

-- JSON payload model and field extraction -------------------------------------

/-- Scalar JSON values occurring in a webhook payload. -/
inductive JVal where
  | str (s : String)
  | num (q : Rat)
  | bool (b : Bool)
  | null
deriving DecidableEq

/-- Python truthiness of a payload value: empty strings, zero, `False` and
`None` are falsy. -/
def JVal.truthy : JVal → Bool
  | .str s => decide (s ≠ "")
  | .num q => decide (q ≠ 0)
  | .bool b => b
  | .null => false

/-- Python truthiness of `dict.get`'s result (`None` when the key is
absent). -/
def optTruthy : Option JVal → Bool
  | none => false
  | some v => v.truthy

/-- Model of `body.get(k)`: first binding of `k` in the parsed JSON
object. -/
def pyGet (body : List (String × JVal)) (k : String) : Option JVal :=
  match body with
  | [] => none
  | (k', v) :: rest => if k' = k then some v else pyGet rest k

/-- Python `a or b` on `dict.get` results: the left operand is kept only
when it is truthy. -/
def pyOr (a b : Option JVal) : Option JVal :=
  match a with
  | some v => if v.truthy then some v else b
  | none => b

/-- Field extraction from `lambda_function.py:565-571`: an `or`-chain of
`body.get` probes over the case-variant key list, e.g.
`body.get('sl') or body.get('SL') or body.get('stopLoss')`. -/
def extractField (body : List (String × JVal)) : List String → Option JVal
  | [] => none
  | [k] => pyGet body k
  | k :: ks => pyOr (pyGet body k) (extractField body ks)

-- C2: priority among case variants of a field ---------------------------------

/-- C2 (counterexample): extraction does not take the value of the
highest-priority present variant.  In the payload
`{"sl": "", "SL": 100}` both variants of the stop-loss field are present
and `"sl"` has the higher priority, yet the chain
`body.get('sl') or body.get('SL') or body.get('stopLoss')` skips the
falsy present value `""` and yields `100`. -/
theorem extractField_not_first_present_cex :
    pyGet [("sl", JVal.str ""), ("SL", JVal.num 100)] "sl" = some (JVal.str "") ∧
      extractField [("sl", JVal.str ""), ("SL", JVal.num 100)]
        ["sl", "SL", "stopLoss"] = some (JVal.num 100) ∧
      JVal.str "" ≠ JVal.num 100 := by
  refine ⟨rfl, ?_, by simp⟩
  rfl

/-- C2 (amended): the extraction probes the fixed priority list of case
variants and takes the first variant whose value is truthy (non-empty,
non-zero, non-null); variants that are present but falsy are skipped.  For
every payload, if every variant before `k` extracts a falsy value and `k`
extracts a truthy one, the chain returns exactly `body.get(k)`. -/
theorem extractField_first_truthy (body : List (String × JVal)) :
    ∀ (ks1 : List String) (k : String) (ks2 : List String),
      (∀ k' ∈ ks1, optTruthy (pyGet body k') = false) →
      optTruthy (pyGet body k) = true →
      extractField body (ks1 ++ k :: ks2) = pyGet body k := by
  intro ks1
  induction ks1 with
  | nil =>
    intro k ks2 _ hk
    cases hget : pyGet body k with
    | none => rw [hget] at hk; simp [optTruthy] at hk
    | some v =>
      rw [hget] at hk
      cases ks2 with
      | nil => simpa using hget
      | cons k2 t =>
        simp only [List.nil_append, extractField, hget, pyOr]
        rw [if_pos (by simpa [optTruthy] using hk)]
  | cons k0 t ih =>
    intro k ks2 h hk
    have h0 := h k0 (List.mem_cons_self k0 t)
    have hrest := ih k ks2 (fun y hy => h y (List.mem_cons_of_mem k0 hy)) hk
    have hne : t ++ k :: ks2 ≠ [] := by
      cases t <;> simp
    obtain ⟨y, ys, hys⟩ : ∃ y ys, t ++ k :: ks2 = y :: ys := by
      cases hcase : t ++ k :: ks2 with
      | nil => exact absurd hcase hne
      | cons y ys => exact ⟨y, ys, rfl⟩
    rw [List.cons_append, hys]
    show pyOr (pyGet body k0) (extractField body (y :: ys)) = pyGet body k
    rw [← hys, hrest]
    cases hget0 : pyGet body k0 with
    | none => rfl
    | some v0 =>
      rw [hget0] at h0
      simp only [optTruthy] at h0
      simp [pyOr, h0]

/-- C2 (witness): with `{"sl": "", "SL": 7, "stopLoss": 9}` the first
truthy variant is `"SL"`, and the chain returns its value. -/
theorem extractField_first_truthy_witness :
    extractField [("sl", JVal.str ""), ("SL", JVal.num 7), ("stopLoss", JVal.num 9)]
        (["sl"] ++ "SL" :: ["stopLoss"])
      = pyGet [("sl", JVal.str ""), ("SL", JVal.num 7), ("stopLoss", JVal.num 9)] "SL" :=
  extractField_first_truthy _ ["sl"] "SL" ["stopLoss"]
    (by intro k' hk'; simp at hk'; subst hk'; rfl)
    (by decide)

-- Bybit V5 API model -----------------------------------------------------------

/-- Response of `get_wallet_balance`: result code, message, and
`result.list`, each account being its `coin` entries
(coin name, `walletBalance`). -/
structure WalletResp where
  retCode : Int
  retMsg : String
  accounts : List (List (String × Rat))

/-- One entry of `result.list` of `get_instruments_info`, reduced to its
`lotSizeFilter`; a missing JSON key is `none`. -/
structure LotSizeFilter where
  minOrderQty : Option Rat
  maxOrderQty : Option Rat
  qtyStep : Option Rat

/-- Response of `get_instruments_info`. -/
structure InstrResp where
  retCode : Int
  retMsg : String
  list : List LotSizeFilter

/-- Response of `place_order`. -/
structure PlaceResp where
  retCode : Int
  retMsg : String
  orderId : Option String
  orderLinkId : Option String

/-- Response of `set_trading_stop`. -/
structure SetStopResp where
  retCode : Int
  retMsg : String

/-- Response of `get_executions`: the `execPrice` of each execution in
`result.list`. -/
structure ExecResp where
  retCode : Int
  retMsg : String
  execPrices : List Rat

/-- The outbound exchange, as the responses it would give to each call a
single request can make.  A call that raises an exception is an
`Except.error` carrying the exception text. -/
structure BybitEnv where
  wallet : Except String WalletResp
  instruments : Except String InstrResp
  place : Except String PlaceResp
  setStop : Except String SetStopResp
  getExec : Except String ExecResp

/-- One outbound exchange call, with the arguments the code passes. -/
inductive ExCall where
  | getWalletBalance
  | getInstrumentsInfo (symbol : PyStr)
  | placeOrder (symbol : PyStr) (side : String) (orderType : String)
      (qty : PyStr) (positionIdx : Nat) (reduceOnly : Bool)
  | setTradingStop (symbol : PyStr)
      (stopLoss takeProfit trailingStop : Option PyStr) (positionIdx : Nat)
  | getExecutions (symbol : PyStr)
deriving DecidableEq

-- Position sizer ---------------------------------------------------------------

/-- Inner loop of the balance extraction (`lambda_function.py:183-185`):
the first `USDT` entry of one account's coin list. -/
def firstUSDT : List (String × Rat) → Option Rat
  | [] => none
  | (c, b) :: rest => if c = "USDT" then some b else firstUSDT rest

/-- Outer loop of the balance extraction (`lambda_function.py:181-188`):
`total_equity` starts at `0`, is overwritten by each account's first USDT
balance, and the loop stops at the first positive value. -/
def scanEquity : List (List (String × Rat)) → Rat → Rat
  | [], acc => acc
  | a :: rest, acc =>
    let acc' := match firstUSDT a with
      | some b => b
      | none => acc
    if acc' > 0 then acc' else scanEquity rest acc'

/-- Position sizer, `calculate_position_size` at
`lambda_function.py:141-241`.  Returns the computed quantity (`none` models
the Python `None` failure result) together with the exchange calls made.
The defaults `0`, `inf` and `0.001` for missing lot-size fields follow
lines 216-218; a missing `maxOrderQty` (`float('inf')`) is modelled as "no
upper cap".  `qty_step = 0` makes `position_size / qty_step` raise
`ZeroDivisionError`, which the inner `except` swallows, falling back to the
unrounded size (lines 233-237). -/
def calculate_position_size (env : BybitEnv) (symbol : PyStr)
    (price : Rat) (risk_percent : Rat) : Option Rat × List ExCall :=
  match env.wallet with
  | .error _ => (none, [ExCall.getWalletBalance])
  | .ok w =>
    if w.retCode ≠ 0 then (none, [ExCall.getWalletBalance])
    else if w.accounts = [] then (none, [ExCall.getWalletBalance])
    else
      let total_equity := scanEquity w.accounts 0
      if total_equity ≤ 0 then (none, [ExCall.getWalletBalance])
      else
        let position_size := total_equity * risk_percent / price
        match env.instruments with
        | .error _ =>
          (some position_size, [ExCall.getWalletBalance, ExCall.getInstrumentsInfo symbol])
        | .ok ir =>
          if ir.retCode = 0 then
            match ir.list with
            | [] =>
              (some position_size,
                [ExCall.getWalletBalance, ExCall.getInstrumentsInfo symbol])
            | inst :: _ =>
              let min_qty := inst.minOrderQty.getD 0
              let qty_step := inst.qtyStep.getD (1/1000)
              if qty_step = 0 then
                (some position_size,
                  [ExCall.getWalletBalance, ExCall.getInstrumentsInfo symbol])
              else
                let stepped := ((pyRound (position_size / qty_step) : ℤ) : ℚ) * qty_step
                let capped := match inst.maxOrderQty with
                  | some mx => min stepped mx
                  | none => stepped
                (some (max min_qty capped),
                  [ExCall.getWalletBalance, ExCall.getInstrumentsInfo symbol])
          else
            (some position_size,
              [ExCall.getWalletBalance, ExCall.getInstrumentsInfo symbol])

-- C3 and C5: sizer output properties ------------------------------------------

theorem clamp_mul_step (st mn mx : ℚ) (N km kx : ℤ) (hst : 0 ≤ st)
    (hkm : mn = (km : ℚ) * st) (hkx : mx = (kx : ℚ) * st) :
    ∃ k : ℤ, max mn (min ((N : ℚ) * st) mx) = (k : ℚ) * st := by
  refine ⟨max km (min N kx), ?_⟩
  push_cast
  rw [max_mul_of_nonneg _ _ hst, min_mul_of_nonneg _ _ hst, hkm, hkx]

/-- C3 (amended): whenever the wallet and instrument fetches succeed with a
first lot-size filter whose step is positive and whose min/max bounds are
themselves integer multiples of the step with `minQty ≤ maxQty`, the sizer
output lies within `[minQty, maxQty]` and is an integer multiple of
`qtyStep`.  Without the multiple-of-step proviso on the bounds the claim
fails, because clamping can land exactly on a bound that is not a
multiple. -/
theorem calculate_position_size_within_constraints (env : BybitEnv)
    (symbol : PyStr) (price risk_percent : Rat) (w : WalletResp)
    (ir : InstrResp) (inst : LotSizeFilter) (rest : List LotSizeFilter)
    (mn mx st : Rat) (km kx : ℤ)
    (hprice : 0 < price) (hrp : 0 < risk_percent)
    (hw : env.wallet = Except.ok w) (hw0 : w.retCode = 0)
    (hacc : w.accounts ≠ []) (heq : 0 < scanEquity w.accounts 0)
    (hi : env.instruments = Except.ok ir) (hi0 : ir.retCode = 0)
    (hl : ir.list = inst :: rest)
    (hmn : inst.minOrderQty = some mn) (hmx : inst.maxOrderQty = some mx)
    (hst : inst.qtyStep = some st) (hstpos : 0 < st) (hmnmx : mn ≤ mx)
    (hkm : mn = (km : ℚ) * st) (hkx : mx = (kx : ℚ) * st) :
    ∃ q, (calculate_position_size env symbol price risk_percent).1 = some q ∧
      mn ≤ q ∧ q ≤ mx ∧ ∃ k : ℤ, q = (k : ℚ) * st := by
  have hne0 : ¬ scanEquity w.accounts 0 ≤ 0 := not_le.mpr heq
  have hst0 : st ≠ 0 := ne_of_gt hstpos
  simp only [calculate_position_size, hw, hi, hi0, hl, hmn, hmx, hst, hw0, hacc,
    hne0, hst0, Option.getD_some, ne_eq, not_true_eq_false, not_false_eq_true,
    ite_true, ite_false, if_pos, if_neg, if_true, if_false]
  refine ⟨_, rfl, le_max_left _ _, max_le hmnmx (min_le_right _ _),
    clamp_mul_step st mn mx _ km kx (le_of_lt hstpos) hkm hkx⟩

/-- Environment for the C3 counterexample: equity 1 USDT, and a (degenerate
but exchange-supplied) lot-size filter with `minOrderQty = 0.5`,
`maxOrderQty = 10`, `qtyStep = 1`. -/
def c3env : BybitEnv :=
  ⟨Except.ok ⟨0, "OK", [[("USDT", 1)]]⟩,
   Except.ok ⟨0, "OK", [⟨some (1/2), some 10, some 1⟩]⟩,
   Except.error "unused", Except.error "unused", Except.error "unused"⟩

/-- C3 (counterexample): with positive equity `1`, riskPercent `0.02` and
entryPrice `10`, and fetched constraints `min 0.5, max 10, step 1`, the raw
quantity `0.002` rounds to `0` and is clamped up to `minQty = 0.5`, which
is inside `[minQty, maxQty]` but is not an integer multiple of
`qtyStep = 1`. -/
theorem calculate_position_size_not_multiple_cex :
    (calculate_position_size c3env [] 10 (2/100)).1 = some (1/2) ∧
      ¬ ∃ k : ℤ, (1/2 : ℚ) = (k : ℚ) * 1 := by
  constructor
  · norm_num [calculate_position_size, c3env, scanEquity, firstUSDT, pyRound]
  · rintro ⟨k, hk⟩
    rw [mul_one] at hk
    field_simp at hk
    have hz : (1 : ℤ) = k * 2 := by exact_mod_cast hk
    omega

/-- C3 (witness): the amended theorem applies to a well-formed filter
`min 0.001, max 100, step 0.001` with equity 100 and price 10. -/
theorem calculate_position_size_within_constraints_witness :
    ∃ q, (calculate_position_size
        ⟨Except.ok ⟨0, "OK", [[("USDT", 100)]]⟩,
         Except.ok ⟨0, "OK", [⟨some (1/1000), some 100, some (1/1000)⟩]⟩,
         Except.error "unused", Except.error "unused", Except.error "unused"⟩
        [] 10 (2/100)).1 = some q ∧
      (1/1000 : ℚ) ≤ q ∧ q ≤ 100 ∧ ∃ k : ℤ, q = (k : ℚ) * (1/1000) :=
  calculate_position_size_within_constraints _ [] 10 (2/100) _ _ _ [] (1/1000) 100 (1/1000)
    1 100000 (by norm_num) (by norm_num) rfl rfl (by simp) (by norm_num [scanEquity, firstUSDT])
    rfl rfl rfl rfl rfl rfl (by norm_num) (by norm_num) (by norm_num) (by norm_num)

/-- Environment for the C5 counterexample: equity 100 USDT and a lot-size
filter with `minOrderQty = 0` (the code's own default when the field is
missing), `maxOrderQty = 1000`, `qtyStep = 0.001`. -/
def c5env : BybitEnv :=
  ⟨Except.ok ⟨0, "OK", [[("USDT", 100)]]⟩,
   Except.ok ⟨0, "OK", [⟨some 0, some 1000, some (1/1000)⟩]⟩,
   Except.error "unused", Except.error "unused", Except.error "unused"⟩

/-- C5 (counterexample): the sizer can return exactly `0`, which is neither
the failure result `None` nor a strictly positive quantity: with equity
100, risk 2% and entry price 1000000, the raw quantity `0.000002` rounds
to `0` steps, and clamping against `minOrderQty = 0` leaves `0`. -/
theorem calculate_position_size_zero_cex :
    (calculate_position_size c5env [] 1000000 (2/100)).1 = some 0 ∧
      ¬ (0 : ℚ) > 0 := by
  constructor
  · norm_num [calculate_position_size, c5env, scanEquity, firstUSDT, pyRound]
  · norm_num

/-- C5 (amended): with a positive risk percentage and entry price, and a
nonnegative fetched `minOrderQty` (the code defaults it to `0`), the sizer
never returns a negative quantity: every non-`None` result is `≥ 0`.  It
can however return exactly `0` (see the counterexample), which the caller
at `lambda_function.py:771` treats as a sizing failure. -/
theorem calculate_position_size_nonneg (env : BybitEnv) (symbol : PyStr)
    (price risk_percent : Rat) (hprice : 0 < price) (hrp : 0 < risk_percent)
    (hmn : ∀ ir, env.instruments = Except.ok ir →
      ∀ inst ∈ ir.list, 0 ≤ inst.minOrderQty.getD 0)
    (q : Rat) (hq : (calculate_position_size env symbol price risk_percent).1 = some q) :
    0 ≤ q := by
  simp only [calculate_position_size] at hq
  split at hq
  · simp at hq
  · rename_i w hw
    split at hq
    · simp at hq
    · split at hq
      · simp at hq
      · split at hq
        · simp at hq
        · rename_i h1 h2 h3
          have hraw : 0 ≤ scanEquity w.accounts 0 * risk_percent / price :=
            le_of_lt (div_pos (mul_pos (lt_of_not_le h3) hrp) hprice)
          split at hq
          · simp at hq
            exact hq ▸ hraw
          · rename_i ir hi
            split at hq
            · rename_i hret0
              split at hq
              · simp at hq
                exact hq ▸ hraw
              · rename_i inst rest hlist
                have hmn0 : 0 ≤ inst.minOrderQty.getD 0 :=
                  hmn ir hi inst (by rw [hlist]; exact List.mem_cons_self _ _)
                split at hq
                · simp at hq
                  exact hq ▸ hraw
                · simp at hq
                  exact hq ▸ le_trans hmn0 (le_max_left _ _)
            · simp at hq
              exact hq ▸ hraw

/-- C5 (witness): the amended nonnegativity theorem applies to the
zero-returning environment of the counterexample. -/
theorem calculate_position_size_nonneg_witness : (0 : ℚ) ≤ 0 :=
  calculate_position_size_nonneg c5env [] 1000000 (2/100)
    (by norm_num) (by norm_num)
    (by
      intro ir hir inst hinst
      have hok : ir = ⟨0, "OK", [⟨some 0, some 1000, some (1/1000)⟩]⟩ := by
        simpa [c5env] using hir.symm
      subst hok
      simp at hinst
      subst hinst
      norm_num)
    0
    (by norm_num [calculate_position_size, c5env, scanEquity, firstUSDT, pyRound])

-- Order executor and position updater -----------------------------------------

/-- Result dictionary of `execute_bybit_order`; keys absent from a given
Python return path are `none`. -/
structure OrderOutcome where
  success : Bool
  error : Option String
  errorCode : Option Int
  orderId : Option String
  orderLinkId : Option String
  fillPrice : Option Rat
  slTpWarning : Option String
deriving DecidableEq

/-- Result dictionary of `update_position_stops`; keys absent from a given
Python return path are `none`. -/
structure UpdateOutcome where
  success : Bool
  error : Option String
  errorCode : Option Int
  warning : Option String
  stopLoss : Option Rat
  takeProfit : Option Rat
  trailingStop : Option Rat
deriving DecidableEq

/-- Python truthiness of a float-or-`None` variable (`if stop_loss:`):
`None` and `0.0` are falsy. -/
def optTruthyR : Option Rat → Bool
  | none => false
  | some q => decide (q ≠ 0)

/-- Position updater, `update_position_stops` at
`lambda_function.py:244-342`.  Fields are included with `is not None`
checks; if all three are absent the function fails locally without any
exchange call (lines 292-299); exchange code 34040 ("not modified") is
success-with-warning (lines 320-327). -/
def update_position_stops (env : BybitEnv) (symbol : PyStr)
    (stop_loss take_profit trailing_stop : Option Rat) :
    UpdateOutcome × List ExCall :=
  if stop_loss.isNone ∧ take_profit.isNone ∧ trailing_stop.isNone then
    (⟨false, some "No stop loss, take profit, or trailing stop provided for update",
      none, none, none, none, none⟩, [])
  else
    let call := ExCall.setTradingStop symbol (stop_loss.map pyFormatQty)
      (take_profit.map pyFormatQty) (trailing_stop.map pyFormatQty) 0
    match env.setStop with
    | .error e => (⟨false, some e, none, none, none, none, none⟩, [call])
    | .ok r =>
      if r.retCode = 0 then
        (⟨true, none, none, none, stop_loss, take_profit, trailing_stop⟩, [call])
      else if r.retCode = 34040 then
        (⟨true, none, none,
          some "Position stops not modified - values may already be set",
          none, none, none⟩, [call])
      else
        (⟨false, some r.retMsg, some r.retCode, none, none, none, none⟩, [call])

/-- Order executor, `execute_bybit_order` at `lambda_function.py:345-502`.
The action maps to side `"Buy"` only for `BUY`/`LONG` (line 371), the
quantity is formatted by `pyFormatQty` (line 374), the market order is
placed in one-way mode non-reduce-only (lines 379-391), a non-zero return
code is terminal (lines 394-405), the combined protective-stop call runs
only when some stop value is truthy (lines 418-463, code 34040 and other
failures become warnings), and the fill-price lookup failure is non-fatal
(lines 466-486).  The two `time.sleep` delays have no observable effect in
the model. -/
def execute_bybit_order (env : BybitEnv) (action symbol : PyStr)
    (quantity : Rat) (stop_loss take_profit trailing_stop : Option Rat) :
    OrderOutcome × List ExCall :=
  let side : String :=
    if pyUpper action = codes "BUY" ∨ pyUpper action = codes "LONG"
    then "Buy" else "Sell"
  let placeCall := ExCall.placeOrder symbol side "Market" (pyFormatQty quantity) 0 false
  match env.place with
  | .error e => (⟨false, some e, none, none, none, none, none⟩, [placeCall])
  | .ok r =>
    if r.retCode ≠ 0 then
      (⟨false, some r.retMsg, some r.retCode, none, none, none, none⟩, [placeCall])
    else
      let stopStep : Option String × List ExCall :=
        if optTruthyR stop_loss || optTruthyR take_profit || optTruthyR trailing_stop then
          let stopCall := ExCall.setTradingStop symbol
            (if optTruthyR stop_loss then stop_loss.map pyFormatQty else none)
            (if optTruthyR take_profit then take_profit.map pyFormatQty else none)
            (if optTruthyR trailing_stop then trailing_stop.map pyFormatQty else none) 0
          match env.setStop with
          | .error e => (some ("SL/TP/TS setup exception: " ++ e), [stopCall])
          | .ok s =>
            if s.retCode = 0 then (none, [stopCall])
            else if s.retCode = 34040 then
              (some "SL/TP/TS not modified (34040) - values may already be set",
                [stopCall])
            else
              (some ("SL/TP/TS setup failed: " ++ s.retMsg ++ " (Code: "
                ++ toString s.retCode ++ ")"), [stopCall])
        else (none, [])
      let fillStep : Option Rat × List ExCall :=
        match env.getExec with
        | .error _ => (none, [ExCall.getExecutions symbol])
        | .ok t =>
          if t.retCode = 0 then
            match t.execPrices with
            | [] => (none, [ExCall.getExecutions symbol])
            | p :: _ => (some p, [ExCall.getExecutions symbol])
          else (none, [ExCall.getExecutions symbol])
      (⟨true, none, none, r.orderId, r.orderLinkId, fillStep.1, stopStep.1⟩,
        placeCall :: (stopStep.2 ++ fillStep.2))

/-- Whether an exchange call is an order placement. -/
def ExCall.isPlace : ExCall → Bool
  | .placeOrder _ _ _ _ _ _ => true
  | _ => false

/-- Whether an exchange call is a stop-setting call. -/
def ExCall.isSetStop : ExCall → Bool
  | .setTradingStop _ _ _ _ _ => true
  | _ => false

/-- Whether an exchange call is a fill-price lookup. -/
def ExCall.isGetExec : ExCall → Bool
  | .getExecutions _ => true
  | _ => false

-- C7: order rejection is terminal ----------------------------------------------

/-- C7 (confirmed): when order placement returns a non-zero exchange code,
the executor returns `success = false` carrying exactly that code and
message, and its call trace contains the single placement call — no retry,
no stop-setting call, no fill-price lookup. -/
theorem execute_bybit_order_rejected_terminal (env : BybitEnv)
    (action symbol : PyStr) (quantity : Rat)
    (stop_loss take_profit trailing_stop : Option Rat) (pr : PlaceResp)
    (hp : env.place = Except.ok pr) (h0 : pr.retCode ≠ 0) :
    (execute_bybit_order env action symbol quantity
        stop_loss take_profit trailing_stop).1.success = false ∧
    (execute_bybit_order env action symbol quantity
        stop_loss take_profit trailing_stop).1.error = some pr.retMsg ∧
    (execute_bybit_order env action symbol quantity
        stop_loss take_profit trailing_stop).1.errorCode = some pr.retCode ∧
    ((execute_bybit_order env action symbol quantity
        stop_loss take_profit trailing_stop).2.countP ExCall.isPlace = 1 ∧
     (execute_bybit_order env action symbol quantity
        stop_loss take_profit trailing_stop).2.countP ExCall.isSetStop = 0 ∧
     (execute_bybit_order env action symbol quantity
        stop_loss take_profit trailing_stop).2.countP ExCall.isGetExec = 0) := by
  simp [execute_bybit_order, hp, h0, List.countP_cons, List.countP_nil,
    ExCall.isPlace, ExCall.isSetStop, ExCall.isGetExec]

/-- C7 (witness): a concrete rejected placement (code 110007,
"insufficient balance"). -/
theorem execute_bybit_order_rejected_terminal_witness :
    (execute_bybit_order
        ⟨Except.error "unused", Except.error "unused",
         Except.ok ⟨110007, "ab not enough for new order", none, none⟩,
         Except.error "unused", Except.error "unused"⟩
        (codes "buy") (codes "BTCUSDT") 1 (some 49000) (some 51000) none).1.success
      = false ∧
    (execute_bybit_order
        ⟨Except.error "unused", Except.error "unused",
         Except.ok ⟨110007, "ab not enough for new order", none, none⟩,
         Except.error "unused", Except.error "unused"⟩
        (codes "buy") (codes "BTCUSDT") 1 (some 49000) (some 51000) none).1.errorCode
      = some 110007 := by
  refine ⟨(execute_bybit_order_rejected_terminal _ _ _ _ _ _ _ _ rfl (by decide)).1, ?_⟩
  have h := (execute_bybit_order_rejected_terminal
    ⟨Except.error "unused", Except.error "unused",
     Except.ok ⟨110007, "ab not enough for new order", none, none⟩,
     Except.error "unused", Except.error "unused"⟩
    (codes "buy") (codes "BTCUSDT") 1 (some 49000) (some 51000) none
    ⟨110007, "ab not enough for new order", none, none⟩ rfl (by decide)).2.2.1
  exact h

-- C9: "values unchanged" sentinel is success-with-warning ----------------------

/-- C9 (confirmed): an exchange response with the "values unchanged"
sentinel code 34040 on a stop-setting call is reported as success with a
warning attached, both by the position updater (when at least one stop
field is provided) and by the order executor's stop-attachment step (after
a successful placement, when at least one stop value is truthy). -/
theorem stop_unchanged_sentinel (env : BybitEnv) (r : SetStopResp)
    (hset : env.setStop = Except.ok r) (h34 : r.retCode = 34040)
    (action symbol : PyStr) (quantity : Rat)
    (stop_loss take_profit trailing_stop : Option Rat) :
    ((stop_loss.isSome || take_profit.isSome || trailing_stop.isSome) = true →
      (update_position_stops env symbol stop_loss take_profit
          trailing_stop).1.success = true ∧
      (update_position_stops env symbol stop_loss take_profit
          trailing_stop).1.warning =
        some "Position stops not modified - values may already be set") ∧
    (∀ pr : PlaceResp, env.place = Except.ok pr → pr.retCode = 0 →
      (optTruthyR stop_loss || optTruthyR take_profit ||
          optTruthyR trailing_stop) = true →
      (execute_bybit_order env action symbol quantity stop_loss take_profit
          trailing_stop).1.success = true ∧
      (execute_bybit_order env action symbol quantity stop_loss take_profit
          trailing_stop).1.slTpWarning =
        some "SL/TP/TS not modified (34040) - values may already be set") := by
  constructor
  · intro hprov
    have hnotall : ¬ (stop_loss = none ∧ take_profit = none ∧ trailing_stop = none) := by
      intro ⟨h1, h2, h3⟩
      rw [h1, h2, h3] at hprov
      simp at hprov
    simp [update_position_stops, hnotall, hset, h34]
  · intro pr hp hpr0 htruthy
    simp [execute_bybit_order, hp, hpr0, htruthy, hset, h34]

/-- Environment for the C9 witness: successful placement, stop-setting
answering 34040. -/
def c9env : BybitEnv :=
  ⟨Except.error "unused", Except.error "unused",
   Except.ok ⟨0, "OK", some "oid42", none⟩,
   Except.ok ⟨34040, "not modified"⟩, Except.error "unused"⟩

/-- C9 (witness): a concrete 34040 response with a provided stop loss is
success for both the updater and the executor's stop attachment. -/
theorem stop_unchanged_sentinel_witness :
    (update_position_stops c9env [] (some 49000) none none).1.success = true ∧
    (execute_bybit_order c9env (codes "buy") [] 1
        (some 49000) none none).1.success = true := by
  constructor
  · exact ((stop_unchanged_sentinel c9env ⟨34040, "not modified"⟩ rfl rfl
      (codes "buy") [] 1 (some 49000) none none).1 (by decide)).1
  · exact ((stop_unchanged_sentinel c9env ⟨34040, "not modified"⟩ rfl rfl
      (codes "buy") [] 1 (some 49000) none none).2
      ⟨0, "OK", some "oid42", none⟩ rfl rfl (by decide)).1

-- Request handler --------------------------------------------------------------

/-- Model of CPython `float(x)` on a payload value: numbers pass through,
strings go through the decimal parser, booleans coerce to 0/1, and `None`
fails (`TypeError`).  Scientific notation and other exotic float syntax is
out of scope for the payloads at hand. -/
def pyFloat : JVal → Option Rat
  | .num q => some q
  | .str s => parseDecimal (codes s)
  | .bool b => some (if b then 1 else 0)
  | .null => none

/-- Model of `float(x) if x else None` wrapped in
`except (ValueError, TypeError): ... = None`, the conversion used for the
optional numeric fields (`lambda_function.py:637-653`, 745-750 and
802-819): falsy or unparsable values become `None`. -/
def pyFloatOpt (o : Option JVal) : Option Rat :=
  match o with
  | some v => if v.truthy then pyFloat v else none
  | none => none

/-- Process-level configuration of the handler: whether the required
environment variables are present (`validate_environment_variables`) and
whether the `HTTP(...)` client constructor succeeds, plus the exchange. -/
structure HandlerEnv where
  envValid : Bool
  clientInitOk : Bool
  bybit : BybitEnv

/-- Observable outcome of one `lambda_handler` invocation: HTTP status,
the `success` flag and `error` of the JSON body (other body fields are not
needed by any claim), the number of Telegram send attempts, and the
exchange calls made.  Error strings keep the static message text; the
Python f-string interpolations of offending values are dropped. -/
structure HandlerResult where
  statusCode : Nat
  success : Bool
  error : Option String
  notifications : Nat
  calls : List ExCall
deriving DecidableEq

/-- Webhook handler, `lambda_handler` at `lambda_function.py:505-938`.

The `event` argument is the request body after the body-resolution of
lines 552-560: `Except.error ()` is a body string that fails `json.loads`
(the `json.JSONDecodeError` handler at lines 907-919), `Except.ok body`
the parsed object.

`telegram_sent` is initialised to `False` (line 539) and every send site
is guarded by `if not telegram_sent:`; since each path below reaches
exactly one send site (and the flag is still `False` there), the
notification count of each return path is written out directly: `1`
everywhere except the environment-validation failure (lines 542-549),
which returns without sending.

A non-string `symbol` makes `symbol.upper()` (line 603) raise
`AttributeError` before the client is initialised, and a non-string
`action` makes `action.upper()` (line 633) raise after it; both land in
the generic `except Exception` handler (lines 921-938). -/
def lambda_handler (env : HandlerEnv)
    (event : Except Unit (List (String × JVal))) : HandlerResult :=
  if env.envValid then
    match event with
    | .error _ =>
      ⟨400, false, some "Invalid JSON", 1, []⟩
    | .ok body =>
      let action? := extractField body ["action", "Action", "ACTION"]
      let symbol? := extractField body ["symbol", "Symbol", "SYMBOL"]
      let qty? := extractField body ["qty", "Qty", "QTY", "quantity"]
      let price? := extractField body ["price", "Price", "entry"]
      let sl? := extractField body ["sl", "SL", "stopLoss"]
      let tp? := extractField body ["tp", "TP", "takeProfit"]
      let ts? := extractField body ["trailing_stop", "trailingStop", "ts"]
      if optTruthy action? then
        if optTruthy symbol? then
          match symbol? with
          | some (JVal.str symbolRaw) =>
            let symbol := normalizeSymbol (codes symbolRaw)
            if env.clientInitOk then
              match action? with
              | some (JVal.str action) =>
                if pyUpper (codes action) = codes "UPDATE" then
                  let sl := pyFloatOpt sl?
                  let tp := pyFloatOpt tp?
                  let ts := pyFloatOpt ts?
                  let ur := update_position_stops env.bybit symbol sl tp ts
                  if ur.1.success then
                    ⟨200, true, none, 1, ur.2⟩
                  else
                    ⟨500, false, ur.1.error, 1, ur.2⟩
                else
                  let quantity? := pyFloatOpt qty?
                  let needSizing :=
                    match quantity? with
                    | none => true
                    | some q => decide (q ≤ 0)
                  let sl := pyFloatOpt sl?
                  let tp := pyFloatOpt tp?
                  let ts := pyFloatOpt ts?
                  if needSizing then
                    if optTruthy price? then
                      match price?.bind pyFloat with
                      | none =>
                        ⟨400, false, some "Invalid price value", 1, []⟩
                      | some entry_price =>
                        let sz := calculate_position_size env.bybit symbol
                          entry_price (2/100)
                        match sz.1 with
                        | none =>
                          ⟨500, false, some "Failed to calculate position size", 1, sz.2⟩
                        | some q =>
                          if q ≤ 0 then
                            ⟨500, false, some "Failed to calculate position size", 1, sz.2⟩
                          else
                            let eo := execute_bybit_order env.bybit (codes action)
                              symbol q sl tp ts
                            if eo.1.success then
                              ⟨200, true, none, 1, sz.2 ++ eo.2⟩
                            else
                              ⟨500, false, eo.1.error, 1, sz.2 ++ eo.2⟩
                    else
                      ⟨400, false,
                        some "Cannot calculate position size: price is required when qty is not provided",
                        1, []⟩
                  else
                    let eo := execute_bybit_order env.bybit (codes action)
                      symbol (quantity?.getD 0) sl tp ts
                    if eo.1.success then
                      ⟨200, true, none, 1, eo.2⟩
                    else
                      ⟨500, false, eo.1.error, 1, eo.2⟩
              | _ =>
                ⟨500, false, some "Internal server error", 1, []⟩
            else
              ⟨500, false, some "Failed to initialize Bybit client", 1, []⟩
          | _ =>
            ⟨500, false, some "Internal server error", 1, []⟩
        else
          ⟨400, false, some "Missing required field: symbol", 1, []⟩
      else
        ⟨400, false, some "Missing required field: action", 1, []⟩
  else
    ⟨500, false, some "Missing required environment variables", 0, []⟩

-- C1: exactly one notification per request ------------------------------------

/-- C1 (counterexample): a request processed while the required environment
variables are missing returns HTTP 500 without sending any chat
notification, so it is not the case that exactly one notification is sent
on every path. -/
theorem lambda_handler_notification_cex :
    ¬ ((lambda_handler ⟨false, true, ⟨Except.error "unused", Except.error "unused",
        Except.error "unused", Except.error "unused", Except.error "unused"⟩⟩
        (Except.ok [("action", JVal.str "buy"), ("symbol", JVal.str "BTCUSDT"),
          ("qty", JVal.num 1)])).notifications = 1) := by decide

/-- C1 (amended): for every request that passes environment-variable
validation, exactly one chat notification is sent, whichever success or
failure path the request takes; when that validation fails the handler
responds 500 with zero notifications. -/
theorem lambda_handler_one_notification (env : HandlerEnv)
    (event : Except Unit (List (String × JVal)))
    (h : env.envValid = true) :
    (lambda_handler env event).notifications = 1 := by
  simp only [lambda_handler, h, if_true]
  cases event with
  | error e => rfl
  | ok body => repeat' (first | rfl | split)

/-- C1 (witness): a fully successful buy request sends exactly one
notification. -/
theorem lambda_handler_one_notification_witness :
    (lambda_handler ⟨true, true, ⟨Except.error "unused", Except.error "unused",
        Except.ok ⟨0, "OK", some "oid42", none⟩, Except.ok ⟨0, "OK"⟩,
        Except.ok ⟨0, "OK", [50000]⟩⟩⟩
      (Except.ok [("action", JVal.str "buy"), ("symbol", JVal.str "BTCUSDT"),
        ("qty", JVal.num 1)])).notifications = 1 :=
  lambda_handler_one_notification _ _ rfl

-- C8: update with no stop fields ----------------------------------------------

/-- Environment for the C8 theorems: valid configuration, exchange never
reached. -/
def c8env : HandlerEnv :=
  ⟨true, true, ⟨Except.error "unused", Except.error "unused", Except.error "unused",
    Except.error "unused", Except.error "unused"⟩⟩

/-- Payload for the C8 theorems: an Update request with none of stopLoss,
takeProfit, trailingStop. -/
def c8body : List (String × JVal) :=
  [("action", JVal.str "update"), ("symbol", JVal.str "ETHUSDT")]

/-- C8 (counterexample): an Update request carrying no stop field fails
locally with no exchange call, but the HTTP status is 500, not the claimed
validation-failure status 400. -/
theorem update_no_fields_cex :
    (lambda_handler c8env (Except.ok c8body)).statusCode = 500 ∧
    (lambda_handler c8env (Except.ok c8body)).statusCode ≠ 400 ∧
    (lambda_handler c8env (Except.ok c8body)).calls = [] := by decide

/-- C8 (amended): for every Update request in which none of stopLoss,
takeProfit, trailingStop is provided (absent, falsy or unparsable), the
request fails locally — no exchange call at all is made — and the HTTP
response carries status 500: the handler routes every `update_position_stops`
failure, this local validation failure included, through the
execution-failure status at `lambda_function.py:677-684`. -/
theorem update_no_fields_local_500 (env : HandlerEnv)
    (body : List (String × JVal)) (a s : String)
    (henv : env.envValid = true) (hcli : env.clientInitOk = true)
    (ha : extractField body ["action", "Action", "ACTION"] = some (JVal.str a))
    (hat : a ≠ "")
    (hupd : pyUpper (codes a) = codes "UPDATE")
    (hs : extractField body ["symbol", "Symbol", "SYMBOL"] = some (JVal.str s))
    (hst : s ≠ "")
    (hsl : pyFloatOpt (extractField body ["sl", "SL", "stopLoss"]) = none)
    (htp : pyFloatOpt (extractField body ["tp", "TP", "takeProfit"]) = none)
    (hts : pyFloatOpt (extractField body ["trailing_stop", "trailingStop", "ts"]) = none) :
    (lambda_handler env (Except.ok body)).statusCode = 500 ∧
    (lambda_handler env (Except.ok body)).success = false ∧
    (lambda_handler env (Except.ok body)).calls = [] := by
  have hta : optTruthy (some (JVal.str a)) = true := by
    simp [optTruthy, JVal.truthy, hat]
  have htsy : optTruthy (some (JVal.str s)) = true := by
    simp [optTruthy, JVal.truthy, hst]
  simp only [lambda_handler, henv, hcli, ha, hs, hta, htsy, hupd, hsl, htp, hts,
    if_true, eq_self_iff_true, update_position_stops, Option.isNone_none,
    and_self, ite_true]
  simp

/-- C8 (witness): the amended theorem applied to the concrete request
`{"action": "update", "symbol": "ETHUSDT"}`. -/
theorem update_no_fields_local_500_witness :
    (lambda_handler c8env (Except.ok c8body)).success = false :=
  (update_no_fields_local_500 c8env c8body "update" "ETHUSDT" rfl rfl rfl
    (by decide) (by decide) rfl (by decide) rfl rfl rfl).2.1

-- C10: any non-update, non-buy action is executed as Sell ----------------------

theorem execute_bybit_order_calls_head (env : BybitEnv) (action symbol : PyStr)
    (quantity : Rat) (sl tp ts : Option Rat) :
    ∃ rest, (execute_bybit_order env action symbol quantity sl tp ts).2
      = ExCall.placeOrder symbol
          (if pyUpper action = codes "BUY" ∨ pyUpper action = codes "LONG"
           then "Buy" else "Sell") "Market" (pyFormatQty quantity) 0 false :: rest := by
  simp only [execute_bybit_order]
  split
  · exact ⟨[], rfl⟩
  · rename_i r heq
    by_cases hr : r.retCode ≠ 0
    · rw [if_pos hr]
      exact ⟨[], rfl⟩
    · rw [if_neg hr]
      exact ⟨_, rfl⟩

/-- C10 (confirmed): a payload whose action is present but neither
`"update"` nor a Buy synonym (`"buy"`/`"long"`, case-insensitively) is not
rejected: the handler proceeds to execution and places a Sell market
order.  Stated for any payload carrying such an action, a symbol and a
positive numeric quantity. -/
theorem unknown_action_maps_to_sell (env : HandlerEnv)
    (body : List (String × JVal)) (a s : String) (q : Rat)
    (henv : env.envValid = true) (hcli : env.clientInitOk = true)
    (ha : extractField body ["action", "Action", "ACTION"] = some (JVal.str a))
    (hat : a ≠ "")
    (hs : extractField body ["symbol", "Symbol", "SYMBOL"] = some (JVal.str s))
    (hst : s ≠ "")
    (hq : extractField body ["qty", "Qty", "QTY", "quantity"] = some (JVal.num q))
    (hqpos : 0 < q)
    (hnu : pyUpper (codes a) ≠ codes "UPDATE")
    (hnb : pyUpper (codes a) ≠ codes "BUY")
    (hnl : pyUpper (codes a) ≠ codes "LONG") :
    ∃ rest, (lambda_handler env (Except.ok body)).calls
      = ExCall.placeOrder (normalizeSymbol (codes s)) "Sell" "Market"
          (pyFormatQty q) 0 false :: rest := by
  have hta : optTruthy (some (JVal.str a)) = true := by
    simp [optTruthy, JVal.truthy, hat]
  have htsy : optTruthy (some (JVal.str s)) = true := by
    simp [optTruthy, JVal.truthy, hst]
  have hq0 : q ≠ 0 := ne_of_gt hqpos
  have hqle : ¬ q ≤ 0 := not_le.mpr hqpos
  have hquant : pyFloatOpt (extractField body ["qty", "Qty", "QTY", "quantity"])
      = some q := by
    rw [hq]; simp [pyFloatOpt, JVal.truthy, pyFloat, hq0]
  have hns : decide (q ≤ 0) = false := decide_eq_false hqle
  obtain ⟨rest, hrest⟩ := execute_bybit_order_calls_head env.bybit (codes a)
    (normalizeSymbol (codes s)) q
    (pyFloatOpt (extractField body ["sl", "SL", "stopLoss"]))
    (pyFloatOpt (extractField body ["tp", "TP", "takeProfit"]))
    (pyFloatOpt (extractField body ["trailing_stop", "trailingStop", "ts"]))
  rw [if_neg (not_or.mpr ⟨hnb, hnl⟩)] at hrest
  simp only [lambda_handler, henv, hcli, ha, hs, hta, htsy, hnu, hquant, hns,
    if_true, ite_true, ite_false, Option.getD_some, if_false, eq_self_iff_true,
    Bool.false_eq_true]
  split
  · exact ⟨rest, by simpa using hrest⟩
  · exact ⟨rest, by simpa using hrest⟩

/-- Payload for the C10 witness: the unrecognized action `"close"`. -/
def c10body : List (String × JVal) :=
  [("action", JVal.str "close"), ("symbol", JVal.str "BTCUSDT"), ("qty", JVal.num 1)]

/-- C10 (witness): the action `"close"` is executed as a Sell market order
for quantity `"1"`. -/
theorem unknown_action_maps_to_sell_witness :
    ∃ rest, (lambda_handler c8env (Except.ok c10body)).calls
      = ExCall.placeOrder (normalizeSymbol (codes "BTCUSDT")) "Sell" "Market"
          (pyFormatQty 1) 0 false :: rest :=
  unknown_action_maps_to_sell c8env c10body "close" "BTCUSDT" 1 rfl rfl (by decide)
    (by decide) (by decide) (by decide) (by decide) (by norm_num) (by decide)
    (by decide) (by decide)
